import Mathlib

/-!
Shallow embedding of the decode-and-playback core of MovieToFrameImage.py.

Modelling conventions:
- Python floats are modelled as exact rationals; Python int() truncation
  toward zero is modelled by pyInt.  All float divisions performed by the
  program are either exact in binary floating point (integer divided by a
  power of two) or only feed a user-visible rounding, so the rational
  model is faithful at the granularity of the claims.
- Python % on integers is Int.emod, which agrees with Python for positive
  moduli (including negative dividends).
- Qt signals are modelled as explicit event values; FrameLoader.run is a
  function from its inputs (media metadata, decoded frame contents, the
  point at which stop() is observed, the point at which the decoder
  raises) to the list of events it emits.
- Frames are identified by natural numbers; frame pixel content is
  irrelevant to every claim.
- Display-only side effects (status bar, label pixmaps, sounds) are
  modelled as append-only logs; update_frame is modelled as the pure view
  it computes.
-/

namespace MovieToFrameImage

def DEF_MAX_FRAME : ℕ := 5000
def DEF_SOUND_MOVE_TOP : String := "PromptViewer_movetop.wav"
def DEF_SOUND_MOVE_END : String := "PromptViewer_moveend.wav"

/-- Python int() applied to a rational: truncation toward zero. -/
def pyInt (q : ℚ) : ℤ := if 0 ≤ q then q.floor else -((-q).floor)

/-- Python list indexing semantics: nonnegative indices from the front,
negative indices from the back, out of range is an IndexError (none). -/
def pyGet {α : Type} (l : List α) (i : ℤ) : Option α :=
  if 0 ≤ i then (if i < (l.length : ℤ) then l.get? i.toNat else none)
  else (if 0 ≤ (l.length : ℤ) + i then l.get? ((l.length : ℤ) + i).toNat else none)

/-- The three pyqtSignals of FrameLoader: progress(frames, idx, total, fps),
finished(frames), error(msg, errtype, errval). -/
inductive Event where
  | progress (frames : List ℕ) (idx : ℕ) (total : ℕ) (fps : ℚ)
  | finished (frames : List ℕ)
  | error (msg : String) (errtype : ℕ) (errval : ℕ)
  deriving DecidableEq

/-- Loader lifecycle actions performed by MainWindow (loader.stop(),
loader.wait(), loader.start()), logged with a job handle. -/
inductive LoaderAct where
  | stop (id : ℕ)
  | wait (id : ℕ)
  | start (id : ℕ) (path : String)
  deriving DecidableEq

/-- The MainWindow state relevant to the claims (fields mirror __init__). -/
structure AppState where
  playlist : List String
  current_index : ℤ
  loader : Option ℕ
  nextLoaderId : ℕ
  loaderLog : List LoaderAct
  frames : List ℕ
  fps : ℚ
  current_filename : String
  current_frame : ℤ
  total_frame : ℕ
  loaded_frame : ℕ
  waittime : ℤ
  waitplay : ℚ
  playing : Bool
  playmode : ℕ
  timerActive : Bool
  timerInterval : ℤ
  hasDummy : Bool
  soundMoveTop : String
  soundMoveEnd : String
  sounds : List String
  statusLog : List String
  deriving DecidableEq

/-- The state set up by MainWindow.__init__ (with default settings). -/
def initState : AppState where
  playlist := []
  current_index := -1
  loader := none
  nextLoaderId := 0
  loaderLog := []
  frames := []
  fps := 0
  current_filename := ""
  current_frame := 0
  total_frame := 0
  loaded_frame := 0
  waittime := pyInt (1000 / 15)
  waitplay := pyInt (1000 / 15)
  playing := false
  playmode := 1
  timerActive := false
  timerInterval := 0
  hasDummy := false
  soundMoveTop := DEF_SOUND_MOVE_TOP
  soundMoveEnd := DEF_SOUND_MOVE_END
  sounds := []
  statusLog := []

/-- MainWindow.play_wave: skips empty file names, otherwise plays the wave
(modelled as appending to the sound log). -/
def play_wave (s : AppState) (file_name : String) : AppState :=
  if file_name = "" then s else { s with sounds := s.sounds ++ [file_name] }

/-- MainWindow.get_speed: playmode 0,1 map to 1; playmode m > 1 maps to
2 ^ (m - 1). -/
def get_speed (mode : ℕ) : ℕ := if mode > 1 then 2 ^ (mode - 1) else 1

/-- MainWindow.start_play: no-op without frames, otherwise set playing,
recompute waitplay = waittime / speed and start the timer with
int(waitplay). -/
def start_play (s : AppState) : AppState :=
  if s.frames = [] then s
  else
    let wp : ℚ := (s.waittime : ℚ) / (get_speed s.playmode : ℚ)
    { s with playing := true, waitplay := wp,
             timerActive := true, timerInterval := pyInt wp }

/-- MainWindow.stop_play: no-op without frames, otherwise clear playing and
stop the timer. -/
def stop_play (s : AppState) : AppState :=
  if s.frames = [] then s
  else { s with playing := false, timerActive := false }

/-- MainWindow.next_frame_manual: guard on frames; manual calls stop
autoplay first; at the last frame the move-top sound plays; the cursor
always advances by (current_frame + 1) % total_frame; autoplay re-arms the
timer. -/
def next_frame_manual (s : AppState) (isManual : Bool) : AppState :=
  if s.frames = [] then s
  else
    let s1 := if isManual then stop_play s else s
    let s2 := if s1.current_frame = (s1.total_frame : ℤ) - 1
              then play_wave s1 s1.soundMoveTop else s1
    let s3 := { s2 with current_frame := (s2.current_frame + 1) % (s2.total_frame : ℤ) }
    if isManual then s3
    else { s3 with timerActive := true, timerInterval := pyInt s3.waitplay }

/-- MainWindow.next_frame: the timer tick, next_frame_manual with
isManual = False. -/
def next_frame (s : AppState) : AppState := next_frame_manual s false

/-- MainWindow.prev_frame: guard on frames; stops autoplay; at frame 0 the
move-end sound plays; the cursor becomes (current_frame - 1) % total_frame. -/
def prev_frame (s : AppState) : AppState :=
  if s.frames = [] then s
  else
    let s1 := stop_play s
    let s2 := if s1.current_frame = 0 then play_wave s1 s1.soundMoveEnd else s1
    { s2 with current_frame := (s2.current_frame - 1) % (s2.total_frame : ℤ) }

/-- MainWindow.change_playspeed: if stopped with a non-zero playmode just
resume; otherwise cycle playmode through (playmode + 1) % 5 and stop or
start accordingly. -/
def change_playspeed (s : AppState) : AppState :=
  if s.playing = false ∧ s.playmode ≠ 0 then start_play s
  else
    let s1 := { s with playmode := (s.playmode + 1) % 5 }
    if s1.playmode = 0 then stop_play s1 else start_play s1

/-- MainWindow.load_current: look up the current path, reset the frame
cursor and counters, stop and join the previous loader if any, clear the
frame buffer and start a fresh FrameLoader for the path. -/
def load_current (s : AppState) : AppState :=
  let fname := (pyGet s.playlist s.current_index).getD ""
  let s1 := { s with current_filename := fname,
                     current_frame := 0, total_frame := 0, loaded_frame := 0 }
  let s2 := match s1.loader with
            | some j => { s1 with
                loaderLog := s1.loaderLog ++ [LoaderAct.stop j, LoaderAct.wait j],
                loader := none }
            | none => s1
  let s3 := { s2 with frames := [] }
  { s3 with loader := some s3.nextLoaderId,
            nextLoaderId := s3.nextLoaderId + 1,
            loaderLog := s3.loaderLog ++ [LoaderAct.start s3.nextLoaderId fname] }

/-- MainWindow.move_func: show the loading message and load the current
playlist entry. -/
def move_func (s : AppState) : AppState :=
  load_current { s with statusLog := s.statusLog ++ ["file loading..."] }

/-- MainWindow.next_movie: advance current_index modulo the playlist
length, then move_func. -/
def next_movie (s : AppState) : AppState :=
  move_func { s with current_index := (s.current_index + 1) % (s.playlist.length : ℤ) }

/-- MainWindow.prev_movie: retreat current_index modulo the playlist
length, then move_func. -/
def prev_movie (s : AppState) : AppState :=
  move_func { s with current_index := (s.current_index - 1) % (s.playlist.length : ℤ) }

/-- MainWindow.on_loading: adopt the published frame list and counters,
derive waittime from fps; on the first frame stop playback, build the
dummy image and restart playback. -/
def on_loading (s : AppState) (frames : List ℕ) (count total : ℕ) (fps : ℚ) : AppState :=
  let s1 := { s with frames := frames, loaded_frame := count + 1, total_frame := total,
                     fps := fps, waittime := pyInt (1000 / fps) }
  let s2 := if count = 0 then { stop_play s1 with hasDummy := true } else s1
  if count = 0 then start_play s2 else s2

/-- MainWindow.on_error: status message only; no state the renderer reads
is modified. -/
def on_error (s : AppState) (msg : String) (errtype errval : ℕ) : AppState :=
  { s with statusLog := s.statusLog ++ ["Error: " ++ msg] }

/-- MainWindow.on_loaded: adopt the final frame list. -/
def on_loaded (s : AppState) (frames : List ℕ) : AppState :=
  { s with frames := frames }

/-- The image MainWindow.update_frame selects. -/
inductive Displayed where
  | frame (f : ℕ)
  | placeholder
  | indexError
  | nothing
  deriving DecidableEq

/-- MainWindow.update_frame as the pure view it computes: no frames means
an early return; a cursor below loaded_frame indexes the frame list (an
out-of-bounds read would be a Python IndexError); otherwise the dummy
placeholder is shown. -/
def update_frame (s : AppState) : Displayed :=
  if s.frames = [] then Displayed.nothing
  else if s.current_frame < (s.loaded_frame : ℤ) then
    match pyGet s.frames s.current_frame with
    | some f => Displayed.frame f
    | none => Displayed.indexError
  else Displayed.placeholder

/-- The animated-image input of FrameLoader.run: the PIL image metadata
(n_frames, the first-frame duration entry of img.info) together with the
decoded content of each frame. -/
structure WebpImg where
  n_frames : ℕ
  duration : Option ℕ
  frame : ℕ → ℕ

/-- The container-video input of FrameLoader.run: the imageio reader's
frame stream, count_frames() result and the fps metadata entry. -/
structure Mp4Reader where
  stream : List ℕ
  count_frames : ℕ
  meta_fps : Option ℚ

/-- How a decode loop ends: normally (fall through to finished.emit) or by
a decoder exception with message msg (caught by the except clause). -/
inductive LoopExit where
  | normal
  | raised (msg : String)
  deriving DecidableEq

/-- Whether the cooperative stop() request has been observed by the time
the loop condition for iteration i is evaluated. -/
def isCancelled (cancelAt : Option ℕ) (i : ℕ) : Bool :=
  match cancelAt with
  | none => false
  | some c => decide (c ≤ i)

/-- Whether the decoder raises while producing frame i. -/
def raisesAt (failAt : Option (ℕ × String)) (i : ℕ) : Bool :=
  match failAt with
  | none => false
  | some p => decide (p.1 = i)

/-- The message of the decoder exception, if any. -/
def failMsg (failAt : Option (ℕ × String)) : String :=
  (failAt.map Prod.snd).getD ""

/-- The webp branch loop of FrameLoader.run.  Each iteration checks
_is_running, decodes the current frame (where the decoder may raise),
appends it, emits one progress event and seeks forward; seeking past the
last frame raises EOFError which breaks the loop.  The seek bound
idx + 1 >= n_frames is carried as the countdown rem = n_frames - 1 - idx,
so rem = 0 means this is the last iteration before EOFError. -/
def webpLoop (img : WebpImg) (cancelAt : Option ℕ) (failAt : Option (ℕ × String))
    (fps : ℚ) (rem idx : ℕ) (frames : List ℕ) : List Event × List ℕ × LoopExit :=
  if isCancelled cancelAt idx then ([], frames, LoopExit.normal)
  else if raisesAt failAt idx then ([], frames, LoopExit.raised (failMsg failAt))
  else
    let frames2 := frames ++ [img.frame idx]
    let ev := Event.progress frames2 idx img.n_frames fps
    match rem with
    | 0 => ([ev], frames2, LoopExit.normal)
    | rem2 + 1 =>
      let r := webpLoop img cancelAt failAt fps rem2 (idx + 1) frames2
      (ev :: r.1, r.2.1, r.2.2)

/-- The fixed frame rate the webp branch computes:
framerate = 1.0 / (dur_ms / 1000.0) with dur_ms = img.info.get("duration", 66). -/
def webpFps (img : WebpImg) : ℚ := 1 / ((img.duration.getD 66 : ℚ) / 1000)

/-- The webp branch of FrameLoader.run: reject more than DEF_MAX_FRAME
frames with an error event before decoding anything; a zero duration makes
the frame-rate division raise (caught by the except clause); otherwise run
the decode loop and emit finished on normal exit or one error event if the
decoder raised. -/
def webpRun (img : WebpImg) (cancelAt : Option ℕ) (failAt : Option (ℕ × String)) :
    List Event :=
  if img.n_frames > DEF_MAX_FRAME then
    [Event.error "Too many frames" 2 img.n_frames]
  else if img.duration.getD 66 = 0 then
    [Event.error "float division by zero" 0 0]
  else
    let r := webpLoop img cancelAt failAt (webpFps img) (img.n_frames - 1) 0 []
    match r.2.2 with
    | LoopExit.normal => r.1 ++ [Event.finished r.2.1]
    | LoopExit.raised msg => r.1 ++ [Event.error msg 0 0]

/-- The mp4 branch loop of FrameLoader.run: for idx, fr in
enumerate(reader): append and emit one progress event.  The reader may
raise while producing a frame; _is_running is never consulted. -/
def mp4Loop (total : ℕ) (fps : ℚ) (failAt : Option (ℕ × String)) :
    List ℕ → ℕ → List ℕ → List Event × List ℕ × LoopExit
  | [], _, frames => ([], frames, LoopExit.normal)
  | f :: rest, idx, frames =>
    if raisesAt failAt idx then ([], frames, LoopExit.raised (failMsg failAt))
    else
      let frames2 := frames ++ [f]
      let ev := Event.progress frames2 idx total fps
      let r := mp4Loop total fps failAt rest (idx + 1) frames2
      (ev :: r.1, r.2.1, r.2.2)

/-- The mp4 branch of FrameLoader.run: reject more than DEF_MAX_FRAME
frames before decoding anything, take fps from the container metadata with
default 15.0, then stream all frames with no cancellation check. -/
def mp4Run (reader : Mp4Reader) (failAt : Option (ℕ × String)) : List Event :=
  if reader.count_frames > DEF_MAX_FRAME then
    [Event.error "Too many frames" 2 reader.count_frames]
  else
    let r := mp4Loop reader.count_frames (reader.meta_fps.getD 15) failAt
               reader.stream 0 []
    match r.2.2 with
    | LoopExit.normal => r.1 ++ [Event.finished r.2.1]
    | LoopExit.raised msg => r.1 ++ [Event.error msg 0 0]

/-- FrameLoader.run: dispatch on the lowercased extension; anything other
than .webp and .mp4 yields the unsupported-format error.  Note that the
stop() observation point cancelAt is only consulted by the webp branch. -/
def FrameLoader_run (ext : String) (img : WebpImg) (reader : Mp4Reader)
    (cancelAt : Option ℕ) (failAt : Option (ℕ × String)) : List Event :=
  if ext = ".webp" then webpRun img cancelAt failAt
  else if ext = ".mp4" then mp4Run reader failAt
  else [Event.error "Unsupported format" 1 0]

/-- Delivery of one FrameLoader event to the connected MainWindow slot. -/
def handleEvent (s : AppState) (e : Event) : AppState :=
  match e with
  | Event.progress frames idx total fps => on_loading s frames idx total fps
  | Event.finished frames => on_loaded s frames
  | Event.error msg t v => on_error s msg t v

/-- Delivery of a sequence of FrameLoader events in emission order. -/
def processEvents (s : AppState) (evs : List Event) : AppState :=
  evs.foldl handleEvent s

/-- The loaded_frame values MainWindow.on_loading publishes for a list of
events: count + 1 for each progress event, in order. -/
def progressLoads (evs : List Event) : List ℕ :=
  evs.filterMap fun e =>
    match e with
    | Event.progress _ idx _ _ => some (idx + 1)
    | _ => none

/-- Recognizer for error events. -/
def isErrorEv : Event → Bool
  | Event.error _ _ _ => true
  | _ => false

/-- The progress event the webp loop emits for frame i when started from
an empty frame list. -/
def progEv (img : WebpImg) (fps : ℚ) (i : ℕ) : Event :=
  Event.progress ((List.range (i + 1)).map img.frame) i img.n_frames fps

/-- The first k progress events of a webp decode started from an empty
frame list. -/
def webpProgressEvents (img : WebpImg) (fps : ℚ) (k : ℕ) : List Event :=
  (List.range k).map (progEv img fps)

/-! Helper lemmas. -/

lemma emod_neg_one (t : ℕ) (h : 0 < t) : (-1 : ℤ) % (t : ℤ) = (t : ℤ) - 1 := by
  have h1 : ((t : ℤ) - 1) % (t : ℤ) = (t : ℤ) - 1 :=
    Int.emod_eq_of_lt (by omega) (by omega)
  have h2 := Int.add_mul_emod_self_left (-1 : ℤ) (t : ℤ) 1
  rw [mul_one] at h2
  rw [← h2, show (-1 : ℤ) + (t : ℤ) = (t : ℤ) - 1 by ring]
  exact h1

lemma load_current_resets (s : AppState) :
    (load_current s).current_frame = 0 ∧ (load_current s).total_frame = 0 ∧
    (load_current s).loaded_frame = 0 ∧ (load_current s).frames = [] ∧
    (load_current s).loader = some s.nextLoaderId ∧
    (load_current s).playing = s.playing ∧
    (load_current s).timerActive = s.timerActive := by
  unfold load_current
  cases s.loader <;> simp

/-! C1. -/

def c1CtrState : AppState :=
  { initState with frames := [5, 6, 7], total_frame := 3, loaded_frame := 3,
                   current_frame := 2 }

/-- C1 counterexample: in a fully loaded 3-frame item with the cursor on
the last frame, the manual stepForward (next_frame_manual with
isManual = True) does not leave current_frame unchanged: it wraps the
cursor to 0, refuting the claimed saturating behavior. -/
theorem C1_counterexample :
    c1CtrState.current_frame = (c1CtrState.total_frame : ℤ) - 1 ∧
    (next_frame_manual c1CtrState true).current_frame = 0 ∧
    (next_frame_manual c1CtrState true).current_frame ≠ c1CtrState.current_frame := by
  refine ⟨by decide, by decide, by decide⟩

/-- C1 (amended): for a loaded item with totalFrames > 0, the manual step
operations wrap exactly like the autoplay tick: stepForward at
currentFrame = totalFrames - 1 sets currentFrame to 0 and plays the
move-top boundary sound, stepBackward at currentFrame = 0 sets
currentFrame to totalFrames - 1 and plays the move-end boundary sound, and
the autoplay tick at the last frame also sets currentFrame to 0 playing
the same move-top sound; no operation saturates. -/
theorem C1_amended (s : AppState) (hf : s.frames ≠ []) (ht : 0 < s.total_frame)
    (h1 : s.soundMoveTop ≠ "") (h2 : s.soundMoveEnd ≠ "") :
    (s.current_frame = (s.total_frame : ℤ) - 1 →
      (next_frame_manual s true).current_frame = 0 ∧
      (next_frame_manual s true).sounds = s.sounds ++ [s.soundMoveTop] ∧
      (next_frame s).current_frame = 0 ∧
      (next_frame s).sounds = s.sounds ++ [s.soundMoveTop]) ∧
    (s.current_frame = 0 →
      (prev_frame s).current_frame = (s.total_frame : ℤ) - 1 ∧
      (prev_frame s).sounds = s.sounds ++ [s.soundMoveEnd]) := by
  have hmod : ((s.total_frame : ℤ) - 1 + 1) % (s.total_frame : ℤ) = 0 := by
    simp
  have hmod2 : (-1 : ℤ) % (s.total_frame : ℤ) = (s.total_frame : ℤ) - 1 :=
    emod_neg_one s.total_frame ht
  constructor
  · intro hc
    simp [next_frame_manual, next_frame, stop_play, play_wave, hf, h1, hc, hmod]
  · intro hc
    simp [prev_frame, stop_play, play_wave, hf, h2, hc, hmod2]

def c1WitState : AppState :=
  { initState with frames := [3], total_frame := 1, loaded_frame := 1,
                   current_frame := 0 }

theorem C1_witness :
    (c1WitState.frames ≠ [] ∧ 0 < c1WitState.total_frame ∧
     c1WitState.soundMoveTop ≠ "" ∧ c1WitState.soundMoveEnd ≠ "") ∧
    ((c1WitState.current_frame = (c1WitState.total_frame : ℤ) - 1 →
      (next_frame_manual c1WitState true).current_frame = 0 ∧
      (next_frame_manual c1WitState true).sounds =
        c1WitState.sounds ++ [c1WitState.soundMoveTop] ∧
      (next_frame c1WitState).current_frame = 0 ∧
      (next_frame c1WitState).sounds =
        c1WitState.sounds ++ [c1WitState.soundMoveTop]) ∧
     (c1WitState.current_frame = 0 →
      (prev_frame c1WitState).current_frame = (c1WitState.total_frame : ℤ) - 1 ∧
      (prev_frame c1WitState).sounds =
        c1WitState.sounds ++ [c1WitState.soundMoveEnd])) :=
  ⟨⟨by decide, by decide, by decide, by decide⟩,
   C1_amended c1WitState (by decide) (by decide) (by decide) (by decide)⟩

/-! C3. -/

def c3CtrState : AppState :=
  { initState with
      playlist := ["a.mp4", "b.mp4"], current_index := 1,
      loader := some 0, nextLoaderId := 1, frames := [1] }

/-- C3 counterexample: after load_current has superseded job 0 by job 1
(the new frame buffer is empty), delivering a finished event that carries
the old job's frame list is not discarded: on_loaded overwrites the frame
buffer the renderer reads with the stale list. -/
theorem C3_counterexample :
    (load_current c3CtrState).loader = some 1 ∧
    (load_current c3CtrState).frames = [] ∧
    (handleEvent (load_current c3CtrState) (Event.finished [7, 8])).frames = [7, 8] := by
  refine ⟨by decide, by decide, by decide⟩

/-- C3 (amended): load_current does stop and join the superseded loader
before starting the new one, so the old thread emits nothing new after the
join; but the foreground handlers perform no job-handle check at all: any
delivered event, including one already queued from the superseded job, is
processed and mutates the state the renderer reads (on_loaded adopts the
carried frame list unconditionally, in every state). -/
theorem C3_amended (s : AppState) (j : ℕ) (hl : s.loader = some j) (F : List ℕ) :
    (load_current s).loaderLog = s.loaderLog ++ [LoaderAct.stop j, LoaderAct.wait j,
      LoaderAct.start s.nextLoaderId ((pyGet s.playlist s.current_index).getD "")] ∧
    (handleEvent (load_current s) (Event.finished F)).frames = F ∧
    (∀ t : AppState, (handleEvent t (Event.finished F)).frames = F) := by
  refine ⟨?_, ?_, fun t => by simp [handleEvent, on_loaded]⟩
  · simp [load_current, hl]
  · simp [handleEvent, on_loaded]

def c3WitState : AppState :=
  { initState with
      playlist := ["x.webp"], current_index := 0, loader := some 4,
      nextLoaderId := 5 }

theorem C3_witness :
    c3WitState.loader = some 4 ∧
    ((load_current c3WitState).loaderLog = c3WitState.loaderLog ++
      [LoaderAct.stop 4, LoaderAct.wait 4,
       LoaderAct.start c3WitState.nextLoaderId
         ((pyGet c3WitState.playlist c3WitState.current_index).getD "")] ∧
     (handleEvent (load_current c3WitState) (Event.finished [9])).frames = [9] ∧
     (∀ t : AppState, (handleEvent t (Event.finished [9])).frames = [9])) :=
  ⟨by decide, C3_amended c3WitState 4 (by decide) [9]⟩

/-! C4. -/

/-- C4: an item whose reported frame count exceeds DEF_MAX_FRAME = 5000
makes both decode branches emit exactly the TooManyFrames error event
carrying that count, with zero progress events and zero decoded frames,
and a foreground that has just reset for the load (load_current) ends with
loaded_frame = 0 and an empty frame buffer. -/
theorem C4 (img : WebpImg) (reader : Mp4Reader) (ca : Option ℕ)
    (fa fb : Option (ℕ × String)) (s t : AppState)
    (h1 : DEF_MAX_FRAME < img.n_frames) (h2 : DEF_MAX_FRAME < reader.count_frames) :
    webpRun img ca fa = [Event.error "Too many frames" 2 img.n_frames] ∧
    mp4Run reader fb = [Event.error "Too many frames" 2 reader.count_frames] ∧
    progressLoads (webpRun img ca fa) = [] ∧
    progressLoads (mp4Run reader fb) = [] ∧
    (processEvents (load_current s) (webpRun img ca fa)).loaded_frame = 0 ∧
    (processEvents (load_current s) (webpRun img ca fa)).frames = [] ∧
    (processEvents (load_current t) (mp4Run reader fb)).loaded_frame = 0 ∧
    (processEvents (load_current t) (mp4Run reader fb)).frames = [] := by
  have hw : webpRun img ca fa = [Event.error "Too many frames" 2 img.n_frames] := by
    unfold webpRun
    rw [if_pos h1]
  have hm : mp4Run reader fb = [Event.error "Too many frames" 2 reader.count_frames] := by
    unfold mp4Run
    rw [if_pos h2]
  have hres := load_current_resets s
  have hres2 := load_current_resets t
  refine ⟨hw, hm, ?_, ?_, ?_, ?_, ?_, ?_⟩ <;>
    simp [hw, hm, progressLoads, processEvents, handleEvent, on_error,
          hres.2.2.1, hres.2.2.2.1, hres2.2.2.1, hres2.2.2.2.1]

def c4Img : WebpImg := ⟨6000, some 100, fun i => i⟩

def c4Reader : Mp4Reader := ⟨[], 6000, some 24⟩

theorem C4_witness :
    (DEF_MAX_FRAME < c4Img.n_frames ∧ DEF_MAX_FRAME < c4Reader.count_frames) ∧
    (webpRun c4Img none none = [Event.error "Too many frames" 2 c4Img.n_frames] ∧
     mp4Run c4Reader none = [Event.error "Too many frames" 2 c4Reader.count_frames] ∧
     progressLoads (webpRun c4Img none none) = [] ∧
     progressLoads (mp4Run c4Reader none) = [] ∧
     (processEvents (load_current initState) (webpRun c4Img none none)).loaded_frame = 0 ∧
     (processEvents (load_current initState) (webpRun c4Img none none)).frames = [] ∧
     (processEvents (load_current initState) (mp4Run c4Reader none)).loaded_frame = 0 ∧
     (processEvents (load_current initState) (mp4Run c4Reader none)).frames = []) :=
  ⟨⟨by decide, by decide⟩,
   C4 c4Img c4Reader none none none initState initState (by decide) (by decide)⟩

/-! C7. -/

def c7CtrState : AppState :=
  { initState with
      playlist := ["a.mp4", "b.mp4"], current_index := 0,
      loader := some 0, nextLoaderId := 1, frames := [1, 2], total_frame := 2,
      loaded_frame := 2, playing := true, timerActive := true }

/-- C7 counterexample: navigating while playing does reset the cursor and
start a new job, but it does not put the playback controller in the
Stopped state before returning: the playing flag stays true and the timer
keeps running after next_movie. -/
theorem C7_counterexample :
    c7CtrState.playing = true ∧
    (next_movie c7CtrState).current_index = 1 ∧
    (next_movie c7CtrState).current_frame = 0 ∧
    (next_movie c7CtrState).playing = true ∧
    (next_movie c7CtrState).timerActive = true := by
  refine ⟨by decide, by decide, by decide, by decide, by decide⟩

/-- C7 (amended): for a non-empty playlist, next_movie and prev_movie wrap
current_index modulo the playlist length, and before returning they cancel
and join the active decode job, reset currentFrame, totalFrames and
loadedFrames to 0 with an emptied frame buffer, and start a new decode job
for the newly selected path; but the playing flag and the autoplay timer
are left unchanged (playback is only stopped when the first progress event
of the new job arrives). -/
theorem C7_amended (s : AppState) (j : ℕ) (hne : s.playlist ≠ [])
    (hl : s.loader = some j) :
    (next_movie s).current_index = (s.current_index + 1) % (s.playlist.length : ℤ) ∧
    (prev_movie s).current_index = (s.current_index - 1) % (s.playlist.length : ℤ) ∧
    (next_movie s).current_frame = 0 ∧
    (next_movie s).total_frame = 0 ∧
    (next_movie s).loaded_frame = 0 ∧
    (next_movie s).frames = [] ∧
    (next_movie s).loader = some s.nextLoaderId ∧
    (next_movie s).loaderLog = s.loaderLog ++ [LoaderAct.stop j, LoaderAct.wait j,
      LoaderAct.start s.nextLoaderId
        ((pyGet s.playlist ((s.current_index + 1) % (s.playlist.length : ℤ))).getD "")] ∧
    (next_movie s).playing = s.playing ∧
    (next_movie s).timerActive = s.timerActive ∧
    (prev_movie s).current_frame = 0 ∧
    (prev_movie s).total_frame = 0 ∧
    (prev_movie s).loaded_frame = 0 ∧
    (prev_movie s).frames = [] ∧
    (prev_movie s).loader = some s.nextLoaderId ∧
    (prev_movie s).loaderLog = s.loaderLog ++ [LoaderAct.stop j, LoaderAct.wait j,
      LoaderAct.start s.nextLoaderId
        ((pyGet s.playlist ((s.current_index - 1) % (s.playlist.length : ℤ))).getD "")] ∧
    (prev_movie s).playing = s.playing ∧
    (prev_movie s).timerActive = s.timerActive := by
  simp [next_movie, prev_movie, move_func, load_current, hl]

def c7WitState : AppState :=
  { initState with
      playlist := ["a.mp4", "b.mp4", "c.webp"], current_index := 2,
      loader := some 3, nextLoaderId := 4, playing := true, timerActive := true }

theorem C7_witness :
    (c7WitState.playlist ≠ [] ∧ c7WitState.loader = some 3) ∧
    ((next_movie c7WitState).current_index =
        (c7WitState.current_index + 1) % (c7WitState.playlist.length : ℤ) ∧
     (prev_movie c7WitState).current_index =
        (c7WitState.current_index - 1) % (c7WitState.playlist.length : ℤ) ∧
     (next_movie c7WitState).current_frame = 0 ∧
     (next_movie c7WitState).total_frame = 0 ∧
     (next_movie c7WitState).loaded_frame = 0 ∧
     (next_movie c7WitState).frames = [] ∧
     (next_movie c7WitState).loader = some c7WitState.nextLoaderId ∧
     (next_movie c7WitState).loaderLog = c7WitState.loaderLog ++
       [LoaderAct.stop 3, LoaderAct.wait 3,
        LoaderAct.start c7WitState.nextLoaderId
          ((pyGet c7WitState.playlist
            ((c7WitState.current_index + 1) % (c7WitState.playlist.length : ℤ))).getD "")] ∧
     (next_movie c7WitState).playing = c7WitState.playing ∧
     (next_movie c7WitState).timerActive = c7WitState.timerActive ∧
     (prev_movie c7WitState).current_frame = 0 ∧
     (prev_movie c7WitState).total_frame = 0 ∧
     (prev_movie c7WitState).loaded_frame = 0 ∧
     (prev_movie c7WitState).frames = [] ∧
     (prev_movie c7WitState).loader = some c7WitState.nextLoaderId ∧
     (prev_movie c7WitState).loaderLog = c7WitState.loaderLog ++
       [LoaderAct.stop 3, LoaderAct.wait 3,
        LoaderAct.start c7WitState.nextLoaderId
          ((pyGet c7WitState.playlist
            ((c7WitState.current_index - 1) % (c7WitState.playlist.length : ℤ))).getD "")] ∧
     (prev_movie c7WitState).playing = c7WitState.playing ∧
     (prev_movie c7WitState).timerActive = c7WitState.timerActive) :=
  ⟨⟨by decide, by decide⟩, C7_amended c7WitState 3 (by decide) (by decide)⟩

/-! C6. -/

lemma change_playspeed_cycle (s : AppState) (hf : s.frames ≠ [])
    (h : ¬(s.playing = false ∧ s.playmode ≠ 0)) (h5 : (s.playmode + 1) % 5 ≠ 0) :
    change_playspeed s = { s with
      playmode := (s.playmode + 1) % 5, playing := true,
      waitplay := (s.waittime : ℚ) / (get_speed ((s.playmode + 1) % 5) : ℚ),
      timerActive := true,
      timerInterval := pyInt ((s.waittime : ℚ) / (get_speed ((s.playmode + 1) % 5) : ℚ)) } := by
  unfold change_playspeed start_play
  rw [if_neg h]
  simp [h5, hf]

lemma change_playspeed_wrap (s : AppState) (hf : s.frames ≠ [])
    (h : ¬(s.playing = false ∧ s.playmode ≠ 0)) (h5 : (s.playmode + 1) % 5 = 0) :
    change_playspeed s = { s with
      playmode := 0, playing := false, timerActive := false } := by
  unfold change_playspeed stop_play
  rw [if_neg h]
  simp [h5, hf]

/-- C6: change_playspeed is the 5-level ladder with resume.  From the
Stopped mode (playmode 0, not playing) five consecutive calls visit the
playmode sequence 1x, 2x, 4x, 8x, Stopped: the first four each leave the
controller playing with the timer armed at period
baseInterval / N (N = 1, 2, 4, 8) where baseInterval = int(1000 / frameRate),
each division truncated to an integer, and the fifth stops playback and
the timer.  Separately, a controller that is merely paused (not playing,
remembered playmode nonzero) resumes at its remembered speed without
cycling. -/
theorem C6 (s : AppState) (hf : s.frames ≠ []) (hp : s.playing = false)
    (hm : s.playmode = 0) (hw : s.waittime = pyInt (1000 / s.fps)) :
    ((change_playspeed s).playmode = 1 ∧
     (change_playspeed s).playing = true ∧
     (change_playspeed s).timerActive = true ∧
     (change_playspeed s).timerInterval =
       pyInt (((pyInt (1000 / s.fps) : ℚ)) / 1)) ∧
    ((change_playspeed (change_playspeed s)).playmode = 2 ∧
     (change_playspeed (change_playspeed s)).playing = true ∧
     (change_playspeed (change_playspeed s)).timerInterval =
       pyInt (((pyInt (1000 / s.fps) : ℚ)) / 2)) ∧
    ((change_playspeed (change_playspeed (change_playspeed s))).playmode = 3 ∧
     (change_playspeed (change_playspeed (change_playspeed s))).playing = true ∧
     (change_playspeed (change_playspeed (change_playspeed s))).timerInterval =
       pyInt (((pyInt (1000 / s.fps) : ℚ)) / 4)) ∧
    ((change_playspeed (change_playspeed (change_playspeed (change_playspeed s)))).playmode = 4 ∧
     (change_playspeed (change_playspeed (change_playspeed (change_playspeed s)))).playing = true ∧
     (change_playspeed (change_playspeed (change_playspeed (change_playspeed s)))).timerInterval =
       pyInt (((pyInt (1000 / s.fps) : ℚ)) / 8)) ∧
    ((change_playspeed (change_playspeed (change_playspeed (change_playspeed
        (change_playspeed s))))).playmode = 0 ∧
     (change_playspeed (change_playspeed (change_playspeed (change_playspeed
        (change_playspeed s))))).playing = false ∧
     (change_playspeed (change_playspeed (change_playspeed (change_playspeed
        (change_playspeed s))))).timerActive = false) ∧
    (∀ t : AppState, t.frames ≠ [] → t.playing = false → t.playmode ≠ 0 →
      (change_playspeed t).playmode = t.playmode ∧
      (change_playspeed t).playing = true ∧
      (change_playspeed t).timerActive = true ∧
      (change_playspeed t).timerInterval =
        pyInt ((t.waittime : ℚ) / (get_speed t.playmode : ℚ))) := by
  have e1 : change_playspeed s = { s with
      playmode := 1, playing := true,
      waitplay := (s.waittime : ℚ) / (get_speed 1 : ℚ),
      timerActive := true,
      timerInterval := pyInt ((s.waittime : ℚ) / (get_speed 1 : ℚ)) } := by
    rw [change_playspeed_cycle s hf (by simp [hm]) (by simp [hm])]
    simp [hm]
  have e2 : change_playspeed (change_playspeed s) = { s with
      playmode := 2, playing := true,
      waitplay := (s.waittime : ℚ) / (get_speed 2 : ℚ),
      timerActive := true,
      timerInterval := pyInt ((s.waittime : ℚ) / (get_speed 2 : ℚ)) } := by
    rw [e1, change_playspeed_cycle _ (by simpa using hf) (by simp) (by simp)]
    simp
  have e3 : change_playspeed (change_playspeed (change_playspeed s)) = { s with
      playmode := 3, playing := true,
      waitplay := (s.waittime : ℚ) / (get_speed 3 : ℚ),
      timerActive := true,
      timerInterval := pyInt ((s.waittime : ℚ) / (get_speed 3 : ℚ)) } := by
    rw [e2, change_playspeed_cycle _ (by simpa using hf) (by simp) (by simp)]
    simp
  have e4 : change_playspeed (change_playspeed (change_playspeed
      (change_playspeed s))) = { s with
      playmode := 4, playing := true,
      waitplay := (s.waittime : ℚ) / (get_speed 4 : ℚ),
      timerActive := true,
      timerInterval := pyInt ((s.waittime : ℚ) / (get_speed 4 : ℚ)) } := by
    rw [e3, change_playspeed_cycle _ (by simpa using hf) (by simp) (by simp)]
    simp
  have e5 : change_playspeed (change_playspeed (change_playspeed (change_playspeed
      (change_playspeed s)))) = { s with
      playmode := 0, playing := false,
      waitplay := (s.waittime : ℚ) / (get_speed 4 : ℚ),
      timerActive := false,
      timerInterval := pyInt ((s.waittime : ℚ) / (get_speed 4 : ℚ)) } := by
    rw [e4, change_playspeed_wrap _ (by simpa using hf) (by simp) (by simp)]
  refine ⟨?_, ?_, ?_, ?_, ?_, ?_⟩
  · rw [e1]; simp [get_speed, hw]
  · rw [e2]; simp [get_speed, hw]
  · rw [e3]; simp [get_speed, hw]
  · rw [e4]; simp [get_speed, hw]
  · rw [e5]; simp
  · intro t ht hp2 hm2
    have : change_playspeed t = start_play t := by
      unfold change_playspeed
      rw [if_pos ⟨hp2, hm2⟩]
    rw [this]
    unfold start_play
    simp [ht]

def c6WitState : AppState :=
  { initState with
      frames := [0, 1], total_frame := 2, loaded_frame := 2,
      fps := 15, waittime := pyInt (1000 / 15), playing := false, playmode := 0 }

theorem C6_witness :
    (c6WitState.frames ≠ [] ∧ c6WitState.playing = false ∧
     c6WitState.playmode = 0 ∧ c6WitState.waittime = pyInt (1000 / c6WitState.fps)) ∧
    ((change_playspeed c6WitState).playmode = 1 ∧
     (change_playspeed (change_playspeed c6WitState)).playmode = 2 ∧
     (change_playspeed (change_playspeed (change_playspeed c6WitState))).playmode = 3 ∧
     (change_playspeed (change_playspeed (change_playspeed
        (change_playspeed c6WitState)))).playmode = 4 ∧
     (change_playspeed (change_playspeed (change_playspeed (change_playspeed
        (change_playspeed c6WitState))))).playmode = 0 ∧
     (change_playspeed (change_playspeed (change_playspeed c6WitState))).timerInterval =
       pyInt (((pyInt (1000 / c6WitState.fps) : ℚ)) / 4)) := by
  have h := C6 c6WitState (by decide) (by decide) (by decide) (by rfl)
  exact ⟨⟨by decide, by decide, by decide, by rfl⟩,
    h.1.1, h.2.1.1, h.2.2.1.1, h.2.2.2.1.1, h.2.2.2.2.1.1, h.2.2.1.2.2⟩

/-! Handler lemmas. -/

/-- on_loading always adopts the published frame list and publishes
loaded_frame = count + 1, regardless of the play/stop bookkeeping done for
the first frame. -/
lemma on_loading_frames (s : AppState) (F : List ℕ) (c t : ℕ) (r : ℚ) :
    (on_loading s F c t r).frames = F ∧ (on_loading s F c t r).loaded_frame = c + 1 := by
  unfold on_loading stop_play start_play
  by_cases hc : c = 0 <;> by_cases hF : F = [] <;> simp [hc, hF]

lemma on_error_fields (s : AppState) (msg : String) (a b : ℕ) :
    (on_error s msg a b).frames = s.frames ∧
    (on_error s msg a b).loaded_frame = s.loaded_frame := ⟨rfl, rfl⟩

lemma processEvents_append (s : AppState) (l1 l2 : List Event) :
    processEvents s (l1 ++ l2) = processEvents (processEvents s l1) l2 := by
  simp [processEvents, List.foldl_append]

/-! FrameLoader loop lemmas. -/

@[simp] lemma isCancelled_none (i : ℕ) : isCancelled none i = false := rfl

@[simp] lemma raisesAt_none (i : ℕ) : raisesAt none i = false := rfl

lemma range_map_snoc (f : ℕ → ℕ) (n : ℕ) :
    (List.range n).map f ++ [f n] = (List.range (n + 1)).map f := by
  rw [List.range_succ, List.map_append]
  rfl

lemma webpLoop_eq (img : WebpImg) (ca : Option ℕ) (fa : Option (ℕ × String)) (fps : ℚ)
    (rem idx : ℕ) (frames : List ℕ) :
    webpLoop img ca fa fps rem idx frames =
      if isCancelled ca idx then ([], frames, LoopExit.normal)
      else if raisesAt fa idx then ([], frames, LoopExit.raised (failMsg fa))
      else
        match rem with
        | 0 => ([Event.progress (frames ++ [img.frame idx]) idx img.n_frames fps],
                frames ++ [img.frame idx], LoopExit.normal)
        | rem2 + 1 =>
          let r := webpLoop img ca fa fps rem2 (idx + 1) (frames ++ [img.frame idx])
          (Event.progress (frames ++ [img.frame idx]) idx img.n_frames fps :: r.1,
           r.2.1, r.2.2) := by
  cases rem <;> rfl

/-- A webp decode loop that is never cancelled and never raises runs to
the end: one progress event per frame with the growing prefix snapshots,
and a normal exit with all frames decoded. -/
lemma webpLoop_complete (img : WebpImg) (fps : ℚ) (rem : ℕ) :
    ∀ idx : ℕ,
      webpLoop img none none fps rem idx ((List.range idx).map img.frame) =
        ((List.range' idx (rem + 1)).map (progEv img fps),
         (List.range (idx + rem + 1)).map img.frame, LoopExit.normal) := by
  induction rem with
  | zero =>
    intro idx
    rw [webpLoop_eq]
    simp [range_map_snoc, progEv, List.range']
  | succ n ih =>
    intro idx
    rw [webpLoop_eq]
    simp only [isCancelled_none, raisesAt_none, Bool.false_eq_true, if_false]
    rw [range_map_snoc, ih (idx + 1)]
    have harith : idx + 1 + n + 1 = idx + (n + 1) + 1 := by omega
    rw [harith]
    simp [List.range', progEv]

/-- A webp decode loop with a pending stop() observed before iteration c
(and no decoder exception) decodes exactly the frames before c, emits
their progress events, and exits normally (so finished is still emitted). -/
lemma webpLoop_cancelled (img : WebpImg) (fps : ℚ) (c : ℕ) (rem : ℕ) :
    ∀ idx : ℕ, idx ≤ c → c ≤ idx + rem →
      webpLoop img (some c) none fps rem idx ((List.range idx).map img.frame) =
        ((List.range' idx (c - idx)).map (progEv img fps),
         (List.range c).map img.frame, LoopExit.normal) := by
  induction rem with
  | zero =>
    intro idx h1 h2
    have hc : c = idx := by omega
    subst hc
    rw [webpLoop_eq]
    simp [isCancelled, List.range']
  | succ n ih =>
    intro idx h1 h2
    rw [webpLoop_eq]
    by_cases hci : c ≤ idx
    · have hc : c = idx := by omega
      subst hc
      simp [isCancelled, List.range']
    · rw [if_neg (by simp [isCancelled]; omega)]
      rw [if_neg (by simp [raisesAt])]
      dsimp only
      rw [range_map_snoc, ih (idx + 1) (by omega) (by omega)]
      have hr : c - idx = (c - (idx + 1)) + 1 := by omega
      rw [hr]
      simp [List.range', progEv]

/-- A webp decode loop whose decoder raises while producing frame k (no
cancellation) decodes exactly the k frames before it, emits their progress
events, and exits raising the exception message. -/
lemma webpLoop_failed (img : WebpImg) (fps : ℚ) (k : ℕ) (msg : String) (rem : ℕ) :
    ∀ idx : ℕ, idx ≤ k → k ≤ idx + rem →
      webpLoop img none (some (k, msg)) fps rem idx ((List.range idx).map img.frame) =
        ((List.range' idx (k - idx)).map (progEv img fps),
         (List.range k).map img.frame, LoopExit.raised msg) := by
  induction rem with
  | zero =>
    intro idx h1 h2
    have hc : k = idx := by omega
    subst hc
    rw [webpLoop_eq]
    simp [raisesAt, failMsg, List.range']
  | succ n ih =>
    intro idx h1 h2
    rw [webpLoop_eq]
    by_cases hki : k ≤ idx
    · have hc : k = idx := by omega
      subst hc
      simp [raisesAt, failMsg, List.range']
    · rw [if_neg (by simp [isCancelled])]
      rw [if_neg (by simp [raisesAt]; omega)]
      dsimp only
      rw [range_map_snoc, ih (idx + 1) (by omega) (by omega)]
      have hr : k - idx = (k - (idx + 1)) + 1 := by omega
      rw [hr]
      simp [List.range', progEv]

/-- In any webp decode loop the frame list only grows, and the published
loaded_frame values (count + 1 per progress event) are exactly the gapless
increasing sequence idx + 1, idx + 2, ... up to the number of frames
appended. -/
lemma progressLoads_webpLoop (img : WebpImg) (ca : Option ℕ) (fa : Option (ℕ × String))
    (fps : ℚ) (rem : ℕ) :
    ∀ (idx : ℕ) (frames : List ℕ),
      frames.length ≤ (webpLoop img ca fa fps rem idx frames).2.1.length ∧
      progressLoads (webpLoop img ca fa fps rem idx frames).1 =
        List.range' (idx + 1)
          ((webpLoop img ca fa fps rem idx frames).2.1.length - frames.length) := by
  induction rem with
  | zero =>
    intro idx frames
    rw [webpLoop_eq]
    split
    · simp [progressLoads]
    · split
      · simp [progressLoads]
      · simp [progressLoads, List.range']
  | succ n ih =>
    intro idx frames
    rw [webpLoop_eq]
    split
    · simp [progressLoads]
    · split
      · simp [progressLoads]
      · dsimp only
        obtain ⟨h1, h2⟩ := ih (idx + 1) (frames ++ [img.frame idx])
        simp only [List.length_append, List.length_cons, List.length_nil] at h1
        constructor
        · omega
        · simp only [progressLoads, List.filterMap_cons] at h2 ⊢
          rw [h2]
          have hd : (webpLoop img ca fa fps n (idx + 1)
              (frames ++ [img.frame idx])).2.1.length - frames.length =
              ((webpLoop img ca fa fps n (idx + 1)
                (frames ++ [img.frame idx])).2.1.length - (frames.length + 1)) + 1 := by
            omega
          rw [hd]
          simp [List.range']

/-- Every event a webp decode loop emits is a progress event carrying the
growing range prefix of decoded frames, the total count and the fixed
frame rate. -/
lemma webpLoop_mem (img : WebpImg) (ca : Option ℕ) (fa : Option (ℕ × String))
    (fps : ℚ) (rem : ℕ) :
    ∀ idx : ℕ, ∀ e : Event,
      e ∈ (webpLoop img ca fa fps rem idx ((List.range idx).map img.frame)).1 →
      ∃ c, idx ≤ c ∧
        e = Event.progress ((List.range (c + 1)).map img.frame) c img.n_frames fps := by
  induction rem with
  | zero =>
    intro idx e hmem
    rw [webpLoop_eq] at hmem
    split at hmem
    · simp at hmem
    · split at hmem
      · simp at hmem
      · rw [range_map_snoc] at hmem
        simp at hmem
        exact ⟨idx, le_refl idx, hmem⟩
  | succ n ih =>
    intro idx e hmem
    rw [webpLoop_eq] at hmem
    split at hmem
    · simp at hmem
    · split at hmem
      · simp at hmem
      · dsimp only at hmem
        rw [range_map_snoc] at hmem
        rcases List.mem_cons.mp hmem with h | h
        · exact ⟨idx, le_refl idx, h⟩
        · obtain ⟨c, hc, he⟩ := ih (idx + 1) e h
          exact ⟨c, by omega, he⟩

/-! mp4 loop lemmas. -/

/-- An mp4 decode loop without decoder exception streams every frame of
the reader and exits normally. -/
lemma mp4Loop_none (total : ℕ) (fps : ℚ) :
    ∀ (l : List ℕ) (idx : ℕ) (frames : List ℕ),
      (mp4Loop total fps none l idx frames).2.1 = frames ++ l ∧
      (mp4Loop total fps none l idx frames).2.2 = LoopExit.normal := by
  intro l
  induction l with
  | nil => intro idx frames; simp [mp4Loop]
  | cons f rest ih =>
    intro idx frames
    obtain ⟨h1, h2⟩ := ih (idx + 1) (frames ++ [f])
    simp [mp4Loop, h1, h2]

/-- In any mp4 decode loop the frame list only grows and the published
loaded_frame values are the gapless increasing sequence starting at
idx + 1. -/
lemma progressLoads_mp4Loop (total : ℕ) (fps : ℚ) (fa : Option (ℕ × String)) :
    ∀ (l : List ℕ) (idx : ℕ) (frames : List ℕ),
      frames.length ≤ (mp4Loop total fps fa l idx frames).2.1.length ∧
      progressLoads (mp4Loop total fps fa l idx frames).1 =
        List.range' (idx + 1)
          ((mp4Loop total fps fa l idx frames).2.1.length - frames.length) := by
  intro l
  induction l with
  | nil => intro idx frames; simp [mp4Loop, progressLoads]
  | cons f rest ih =>
    intro idx frames
    rw [mp4Loop]
    split
    · simp [progressLoads]
    · dsimp only
      obtain ⟨h1, h2⟩ := ih (idx + 1) (frames ++ [f])
      simp only [List.length_append, List.length_cons, List.length_nil] at h1
      constructor
      · omega
      · simp only [progressLoads, List.filterMap_cons] at h2 ⊢
        rw [h2]
        have hd : (mp4Loop total fps fa rest (idx + 1)
            (frames ++ [f])).2.1.length - frames.length =
            ((mp4Loop total fps fa rest (idx + 1)
              (frames ++ [f])).2.1.length - (frames.length + 1)) + 1 := by
          omega
        rw [hd]
        simp [List.range']

/-- Every event an mp4 decode loop emits is a progress event whose frame
list is the already-accumulated frames extended by a non-empty prefix of
the remaining stream, with matching index, total and frame rate. -/
lemma mp4Loop_mem (total : ℕ) (fps : ℚ) (fa : Option (ℕ × String)) :
    ∀ (l : List ℕ) (idx : ℕ) (frames : List ℕ), ∀ e : Event,
      e ∈ (mp4Loop total fps fa l idx frames).1 →
      ∃ m, 1 ≤ m ∧ m ≤ l.length ∧
        e = Event.progress (frames ++ l.take m) (idx + m - 1) total fps := by
  intro l
  induction l with
  | nil => intro idx frames e hmem; simp [mp4Loop] at hmem
  | cons f rest ih =>
    intro idx frames e hmem
    rw [mp4Loop] at hmem
    split at hmem
    · simp at hmem
    · dsimp only at hmem
      rcases List.mem_cons.mp hmem with h | h
      · exact ⟨1, le_refl 1, by simp, by simpa using h⟩
      · obtain ⟨m, hm1, hm2, he⟩ := ih (idx + 1) (frames ++ [f]) e h
        refine ⟨m + 1, by omega, by simpa using hm2, ?_⟩
        rw [he]
        have : (frames ++ [f]) ++ rest.take m = frames ++ (f :: rest).take (m + 1) := by
          simp
        rw [this]
        have : idx + 1 + m - 1 = idx + (m + 1) - 1 := by omega
        rw [this]

/-- An mp4 decode loop whose decoder raises while producing frame k keeps
the k frames appended before the exception and exits raising the message;
processing its progress events leaves the foreground with exactly those
frames and loaded_frame = k. -/
lemma mp4Loop_failed (total : ℕ) (fps : ℚ) (k : ℕ) (msg : String) :
    ∀ (l : List ℕ) (idx : ℕ) (frames : List ℕ), idx ≤ k → k - idx < l.length →
      (mp4Loop total fps (some (k, msg)) l idx frames).2.1 =
        frames ++ l.take (k - idx) ∧
      (mp4Loop total fps (some (k, msg)) l idx frames).2.2 = LoopExit.raised msg ∧
      (∀ s : AppState, idx < k →
        (processEvents s (mp4Loop total fps (some (k, msg)) l idx frames).1).frames =
          frames ++ l.take (k - idx) ∧
        (processEvents s (mp4Loop total fps (some (k, msg)) l idx frames).1).loaded_frame
          = k) := by
  intro l
  induction l with
  | nil =>
    intro idx frames h1 h2
    simp at h2
  | cons f rest ih =>
    intro idx frames h1 h2
    rw [mp4Loop]
    by_cases hk : k = idx
    · subst hk
      simp [raisesAt, failMsg]
    · have hlt : idx < k := by omega
      rw [if_neg (by simp [raisesAt]; omega)]
      dsimp only
      have hr : k - idx = (k - (idx + 1)) + 1 := by omega
      by_cases hk2 : idx + 1 = k
      · have hrest : (mp4Loop total fps (some (k, msg)) rest (idx + 1) (frames ++ [f])) =
            ([], frames ++ [f], LoopExit.raised msg) := by
          cases rest with
          | nil =>
            exfalso
            simp at h2
            omega
          | cons g r2 =>
            rw [mp4Loop, if_pos (by simp [raisesAt]; omega)]
            simp [failMsg]
        rw [hrest]
        have htake : k - idx = 1 := by omega
        rw [htake]
        refine ⟨by simp, rfl, ?_⟩
        intro s _
        have hol := on_loading_frames s (frames ++ [f]) idx total fps
        constructor
        · simpa [processEvents, handleEvent] using hol.1
        · have := hol.2
          simp only [processEvents, handleEvent, List.foldl_cons, List.foldl_nil]
          omega
      · have hlt2 : idx + 1 ≤ k := by omega
        have hlen : k - (idx + 1) < rest.length := by
          simp at h2
          omega
        obtain ⟨g1, g2, g3⟩ := ih (idx + 1) (frames ++ [f]) hlt2 hlen
        refine ⟨?_, by simpa using g2, ?_⟩
        · rw [hr]
          simp only [List.take_succ_cons]
          simp [g1]
        · intro s _
          have hstep : processEvents s
              (Event.progress (frames ++ [f]) idx total fps ::
                (mp4Loop total fps (some (k, msg)) rest (idx + 1) (frames ++ [f])).1) =
              processEvents (on_loading s (frames ++ [f]) idx total fps)
                (mp4Loop total fps (some (k, msg)) rest (idx + 1) (frames ++ [f])).1 := by
            simp [processEvents, handleEvent]
          rw [hstep]
          obtain ⟨g4, g5⟩ := g3 (on_loading s (frames ++ [f]) idx total fps) (by omega)
          refine ⟨?_, g5⟩
          rw [g4, hr]
          simp

/-! Run-level lemmas. -/

lemma webpRun_eq (img : WebpImg) (ca : Option ℕ) (fa : Option (ℕ × String))
    (h1 : img.n_frames ≤ DEF_MAX_FRAME) (h2 : img.duration.getD 66 ≠ 0) :
    webpRun img ca fa =
      match (webpLoop img ca fa (webpFps img) (img.n_frames - 1) 0 []).2.2 with
      | LoopExit.normal =>
          (webpLoop img ca fa (webpFps img) (img.n_frames - 1) 0 []).1 ++
            [Event.finished (webpLoop img ca fa (webpFps img) (img.n_frames - 1) 0 []).2.1]
      | LoopExit.raised msg =>
          (webpLoop img ca fa (webpFps img) (img.n_frames - 1) 0 []).1 ++
            [Event.error msg 0 0] := by
  unfold webpRun
  rw [if_neg (by omega), if_neg h2]

lemma mp4Run_eq (reader : Mp4Reader) (fa : Option (ℕ × String))
    (h1 : reader.count_frames ≤ DEF_MAX_FRAME) :
    mp4Run reader fa =
      match (mp4Loop reader.count_frames (reader.meta_fps.getD 15) fa
              reader.stream 0 []).2.2 with
      | LoopExit.normal =>
          (mp4Loop reader.count_frames (reader.meta_fps.getD 15) fa
            reader.stream 0 []).1 ++
            [Event.finished (mp4Loop reader.count_frames (reader.meta_fps.getD 15) fa
              reader.stream 0 []).2.1]
      | LoopExit.raised msg =>
          (mp4Loop reader.count_frames (reader.meta_fps.getD 15) fa
            reader.stream 0 []).1 ++
            [Event.error msg 0 0] := by
  unfold mp4Run
  rw [if_neg (by omega)]

@[simp] lemma progressLoads_append (a b : List Event) :
    progressLoads (a ++ b) = progressLoads a ++ progressLoads b := by
  simp [progressLoads]

@[simp] lemma progressLoads_finished (F : List ℕ) :
    progressLoads [Event.finished F] = [] := rfl

@[simp] lemma progressLoads_error (m : String) (a b : ℕ) :
    progressLoads [Event.error m a b] = [] := rfl

lemma webpProgressEvents_succ (img : WebpImg) (fps : ℚ) (k : ℕ) :
    webpProgressEvents img fps (k + 1) =
      webpProgressEvents img fps k ++ [progEv img fps k] := by
  unfold webpProgressEvents
  rw [List.range_succ, List.map_append]
  rfl

lemma webpProgressEvents_filter (img : WebpImg) (fps : ℚ) (k : ℕ) :
    (webpProgressEvents img fps k).filter isErrorEv = [] := by
  induction k with
  | zero => rfl
  | succ n ih =>
    rw [webpProgressEvents_succ, List.filter_append, ih]
    rfl

lemma webpProgressEvents_no_finished (img : WebpImg) (fps : ℚ) (k : ℕ) (F : List ℕ) :
    Event.finished F ∉ webpProgressEvents img fps k := by
  unfold webpProgressEvents
  simp [progEv]

lemma processEvents_progress (img : WebpImg) (fps : ℚ) (s : AppState) (m : ℕ) :
    (processEvents s (webpProgressEvents img fps (m + 1))).frames =
      (List.range (m + 1)).map img.frame ∧
    (processEvents s (webpProgressEvents img fps (m + 1))).loaded_frame = m + 1 := by
  rw [webpProgressEvents_succ, processEvents_append]
  have h := on_loading_frames (processEvents s (webpProgressEvents img fps m))
    ((List.range (m + 1)).map img.frame) m img.n_frames fps
  constructor
  · simpa [processEvents, handleEvent, progEv] using h.1
  · simpa [processEvents, handleEvent, progEv] using h.2

/-! C2. -/

def c2Img : WebpImg := ⟨3, some 100, fun i => i⟩

/-- C2 counterexample: a 3-frame webp job for which stop() is observed at
the second loop iteration does stop decoding (only 1 of 3 frames is
appended, so the cancellation was observed), yet after observing the
cancellation the job still emits a finished event carrying the partial
frame list -- there is no Cancelled terminal state and the no-further-events
claim is false. -/
theorem C2_counterexample :
    webpRun c2Img (some 1) none =
      [Event.progress [0] 0 3 10, Event.finished [0]] := by
  have hfps : webpFps c2Img = 10 := by
    norm_num [webpFps, c2Img]
  have hloop := webpLoop_cancelled c2Img (webpFps c2Img) 1 (c2Img.n_frames - 1) 0
    (by norm_num [c2Img]) (by norm_num [c2Img])
  simp only [List.range_zero, List.map_nil] at hloop
  rw [webpRun_eq c2Img (some 1) none (by norm_num [c2Img, DEF_MAX_FRAME])
      (by norm_num [c2Img])]
  rw [hfps] at hloop ⊢
  rw [hloop]
  have hr1 : List.range 1 = [0] := rfl
  simp [progEv, c2Img, hr1, List.range']

/-- C2 (amended): once stop() is observed, the webp decode loop does stop
at the next frame boundary before appending (a job cancelled before
iteration c appends exactly the frames 0..c-1 and emits exactly their
progress events), but its terminal event is still a finished event
carrying the partial frame list -- the run never distinguishes a Cancelled
outcome from Finished; and the mp4 branch ignores the stop() request
entirely (its run is the same function of the input for every cancellation
point). -/
theorem C2_amended (img : WebpImg) (c : ℕ) (hc : c < img.n_frames)
    (hmax : img.n_frames ≤ DEF_MAX_FRAME) (hd : img.duration.getD 66 ≠ 0) :
    webpRun img (some c) none =
      webpProgressEvents img (webpFps img) c ++
        [Event.finished ((List.range c).map img.frame)] ∧
    (∀ (reader : Mp4Reader) (ca ca2 : Option ℕ) (fa : Option (ℕ × String)),
      FrameLoader_run ".mp4" img reader ca fa =
        FrameLoader_run ".mp4" img reader ca2 fa) := by
  constructor
  · have hloop := webpLoop_cancelled img (webpFps img) c (img.n_frames - 1) 0
      (by omega) (by omega)
    simp only [List.range_zero, List.map_nil] at hloop
    rw [webpRun_eq img (some c) none hmax hd, hloop]
    simp [webpProgressEvents, List.range_eq_range']
  · intro reader ca ca2 fa
    rfl

def c2WitImg : WebpImg := ⟨4, some 50, fun i => i⟩

theorem C2_witness :
    (2 < c2WitImg.n_frames ∧ c2WitImg.n_frames ≤ DEF_MAX_FRAME ∧
     c2WitImg.duration.getD 66 ≠ 0) ∧
    (webpRun c2WitImg (some 2) none =
      webpProgressEvents c2WitImg (webpFps c2WitImg) 2 ++
        [Event.finished ((List.range 2).map c2WitImg.frame)] ∧
     (∀ (reader : Mp4Reader) (ca ca2 : Option ℕ) (fa : Option (ℕ × String)),
       FrameLoader_run ".mp4" c2WitImg reader ca fa =
         FrameLoader_run ".mp4" c2WitImg reader ca2 fa)) :=
  ⟨⟨by decide, by decide, by decide⟩,
   C2_amended c2WitImg 2 (by decide) (by decide) (by decide)⟩

/-! C5. -/

/-- C5: for every decode job (any cancellation point, any decoder
exception point), the loaded_frame values published by the progress events
form exactly the gapless strictly increasing sequence 1, 2, ..., n where n
is the number of frames the job decoded; in particular a job that runs to
completion publishes 1, 2, ..., totalFrames for webp and 1, 2, ...,
streamLength for mp4. -/
theorem C5 (img : WebpImg) (ca : Option ℕ) (fa : Option (ℕ × String))
    (reader : Mp4Reader) (fb : Option (ℕ × String))
    (h1 : img.n_frames ≤ DEF_MAX_FRAME) (h2 : img.duration.getD 66 ≠ 0)
    (h3 : 1 ≤ img.n_frames) (h4 : reader.count_frames ≤ DEF_MAX_FRAME) :
    progressLoads (webpRun img ca fa) =
      List.range' 1
        (webpLoop img ca fa (webpFps img) (img.n_frames - 1) 0 []).2.1.length ∧
    progressLoads (mp4Run reader fb) =
      List.range' 1
        (mp4Loop reader.count_frames (reader.meta_fps.getD 15) fb
          reader.stream 0 []).2.1.length ∧
    progressLoads (webpRun img none none) = List.range' 1 img.n_frames ∧
    progressLoads (mp4Run reader none) = List.range' 1 reader.stream.length := by
  have hwebp : ∀ (ca1 : Option ℕ) (fa1 : Option (ℕ × String)),
      progressLoads (webpRun img ca1 fa1) =
        List.range' 1
          (webpLoop img ca1 fa1 (webpFps img) (img.n_frames - 1) 0 []).2.1.length := by
    intro ca1 fa1
    have hml := (progressLoads_webpLoop img ca1 fa1 (webpFps img)
      (img.n_frames - 1) 0 []).2
    rw [webpRun_eq img ca1 fa1 h1 h2]
    cases hx : (webpLoop img ca1 fa1 (webpFps img) (img.n_frames - 1) 0 []).2.2 with
    | normal => simpa using hml
    | raised msg => simpa using hml
  have hmp4 : ∀ fb1 : Option (ℕ × String),
      progressLoads (mp4Run reader fb1) =
        List.range' 1
          (mp4Loop reader.count_frames (reader.meta_fps.getD 15) fb1
            reader.stream 0 []).2.1.length := by
    intro fb1
    have hml := (progressLoads_mp4Loop reader.count_frames (reader.meta_fps.getD 15)
      fb1 reader.stream 0 []).2
    rw [mp4Run_eq reader fb1 h4]
    cases hx : (mp4Loop reader.count_frames (reader.meta_fps.getD 15) fb1
        reader.stream 0 []).2.2 with
    | normal => simpa using hml
    | raised msg => simpa using hml
  refine ⟨hwebp ca fa, hmp4 fb, ?_, ?_⟩
  · rw [hwebp none none]
    have hcpl := webpLoop_complete img (webpFps img) (img.n_frames - 1) 0
    simp only [List.range_zero, List.map_nil] at hcpl
    rw [hcpl]
    simp only [List.length_map, List.length_range]
    congr 1
    omega
  · rw [hmp4 none]
    have hnone := (mp4Loop_none reader.count_frames (reader.meta_fps.getD 15)
      reader.stream 0 []).1
    rw [hnone]
    simp

def c5Img : WebpImg := ⟨2, some 100, fun i => i⟩

def c5Reader : Mp4Reader := ⟨[7, 8], 2, some 24⟩

theorem C5_witness :
    (c5Img.n_frames ≤ DEF_MAX_FRAME ∧ c5Img.duration.getD 66 ≠ 0 ∧
     1 ≤ c5Img.n_frames ∧ c5Reader.count_frames ≤ DEF_MAX_FRAME) ∧
    (progressLoads (webpRun c5Img (some 1) none) =
      List.range' 1
        (webpLoop c5Img (some 1) none (webpFps c5Img) (c5Img.n_frames - 1) 0 []).2.1.length ∧
     progressLoads (mp4Run c5Reader none) =
      List.range' 1
        (mp4Loop c5Reader.count_frames (c5Reader.meta_fps.getD 15) none
          c5Reader.stream 0 []).2.1.length ∧
     progressLoads (webpRun c5Img none none) = List.range' 1 c5Img.n_frames ∧
     progressLoads (mp4Run c5Reader none) = List.range' 1 c5Reader.stream.length) :=
  ⟨⟨by decide, by decide, by decide, by decide⟩,
   C5 c5Img (some 1) none c5Reader none (by decide) (by decide) (by decide) (by decide)⟩

/-! Run-level membership lemmas. -/

/-- Every progress event a webp run emits carries the decoded prefix, the
item total and the single fixed frame rate. -/
lemma webpRun_mem_progress (img : WebpImg) (ca : Option ℕ) (fa : Option (ℕ × String))
    (h1 : img.n_frames ≤ DEF_MAX_FRAME) (h2 : img.duration.getD 66 ≠ 0)
    (F : List ℕ) (c t : ℕ) (r : ℚ)
    (hmem : Event.progress F c t r ∈ webpRun img ca fa) :
    F = (List.range (c + 1)).map img.frame ∧ t = img.n_frames ∧ r = webpFps img := by
  rw [webpRun_eq img ca fa h1 h2] at hmem
  have key := webpLoop_mem img ca fa (webpFps img) (img.n_frames - 1) 0
  simp only [List.range_zero, List.map_nil] at key
  cases hx : (webpLoop img ca fa (webpFps img) (img.n_frames - 1) 0 []).2.2 with
  | normal =>
    rw [hx] at hmem
    simp only [List.mem_append, List.mem_singleton] at hmem
    rcases hmem with hmem | hmem
    · obtain ⟨c2, _, he⟩ := key _ hmem
      injection he with hF hc ht hr
      subst hc
      exact ⟨hF, ht, hr⟩
    · simp at hmem
  | raised msg =>
    rw [hx] at hmem
    simp only [List.mem_append, List.mem_singleton] at hmem
    rcases hmem with hmem | hmem
    · obtain ⟨c2, _, he⟩ := key _ hmem
      injection he with hF hc ht hr
      subst hc
      exact ⟨hF, ht, hr⟩
    · simp at hmem

/-- Every progress event an mp4 run emits carries a non-empty prefix of
the stream, the matching index, the item total and the container frame
rate. -/
lemma mp4Run_mem_progress (reader : Mp4Reader) (fb : Option (ℕ × String))
    (h : reader.count_frames ≤ DEF_MAX_FRAME) (F : List ℕ) (c t : ℕ) (r : ℚ)
    (hmem : Event.progress F c t r ∈ mp4Run reader fb) :
    ∃ m, 1 ≤ m ∧ m ≤ reader.stream.length ∧ F = reader.stream.take m ∧
      c = m - 1 ∧ t = reader.count_frames ∧ r = reader.meta_fps.getD 15 := by
  rw [mp4Run_eq reader fb h] at hmem
  cases hx : (mp4Loop reader.count_frames (reader.meta_fps.getD 15) fb
      reader.stream 0 []).2.2 with
  | normal =>
    rw [hx] at hmem
    simp only [List.mem_append, List.mem_singleton] at hmem
    rcases hmem with hmem | hmem
    · obtain ⟨m, hm1, hm2, he⟩ := mp4Loop_mem reader.count_frames
        (reader.meta_fps.getD 15) fb reader.stream 0 [] _ hmem
      injection he with hF hc ht hr
      exact ⟨m, hm1, hm2, by simpa using hF, by omega, ht, hr⟩
    · simp at hmem
  | raised msg =>
    rw [hx] at hmem
    simp only [List.mem_append, List.mem_singleton] at hmem
    rcases hmem with hmem | hmem
    · obtain ⟨m, hm1, hm2, he⟩ := mp4Loop_mem reader.count_frames
        (reader.meta_fps.getD 15) fb reader.stream 0 [] _ hmem
      injection he with hF hc ht hr
      exact ⟨m, hm1, hm2, by simpa using hF, by omega, ht, hr⟩
    · simp at hmem

lemma mp4Loop_filter (total : ℕ) (fps : ℚ) (fa : Option (ℕ × String))
    (l : List ℕ) (idx : ℕ) (frames : List ℕ) :
    ((mp4Loop total fps fa l idx frames).1).filter isErrorEv = [] := by
  rw [List.filter_eq_nil]
  intro e he
  obtain ⟨m, _, _, hee⟩ := mp4Loop_mem total fps fa l idx frames e he
  simp [hee, isErrorEv]

lemma mp4Loop_no_finished (total : ℕ) (fps : ℚ) (fa : Option (ℕ × String))
    (l : List ℕ) (idx : ℕ) (frames : List ℕ) (F : List ℕ) :
    Event.finished F ∉ (mp4Loop total fps fa l idx frames).1 := by
  intro hmem
  obtain ⟨m, _, _, he⟩ := mp4Loop_mem total fps fa l idx frames _ hmem
  simp at he

/-! C8. -/

/-- C8: every decode job computes exactly one fixed frame rate for the
whole item and every progress event carries it: for webp it is
1000 / firstFrameDurationMs (the duration entry of the first frame), for
mp4 it is the container-reported fps metadata; per-frame variable timing
never enters the events. -/
theorem C8 (img : WebpImg) (d : ℕ) (ca : Option ℕ) (fa : Option (ℕ × String))
    (reader : Mp4Reader) (q : ℚ) (fb : Option (ℕ × String))
    (hd : img.duration = some d) (hd0 : d ≠ 0) (h1 : img.n_frames ≤ DEF_MAX_FRAME)
    (hq : reader.meta_fps = some q) (h2 : reader.count_frames ≤ DEF_MAX_FRAME) :
    (∀ F c t r, Event.progress F c t r ∈ webpRun img ca fa → r = 1000 / (d : ℚ)) ∧
    (∀ F c t r, Event.progress F c t r ∈ mp4Run reader fb → r = q) := by
  have hd66 : img.duration.getD 66 = d := by rw [hd]; rfl
  have hfps : webpFps img = 1000 / (d : ℚ) := by
    unfold webpFps
    rw [hd66, one_div_div]
  constructor
  · intro F c t r hm
    have hr := (webpRun_mem_progress img ca fa h1 (by rw [hd66]; exact hd0)
      F c t r hm).2.2
    rw [hr, hfps]
  · intro F c t r hm
    obtain ⟨m, _, _, _, _, _, hr⟩ := mp4Run_mem_progress reader fb h2 F c t r hm
    rw [hr, hq]
    rfl

def c8Img : WebpImg := ⟨3, some 40, fun i => i⟩

def c8Reader : Mp4Reader := ⟨[1, 2], 2, some 24⟩

theorem C8_witness :
    (c8Img.duration = some 40 ∧ (40 : ℕ) ≠ 0 ∧ c8Img.n_frames ≤ DEF_MAX_FRAME ∧
     c8Reader.meta_fps = some 24 ∧ c8Reader.count_frames ≤ DEF_MAX_FRAME) ∧
    ((∀ F c t r, Event.progress F c t r ∈ webpRun c8Img none none →
        r = 1000 / ((40 : ℕ) : ℚ)) ∧
     (∀ F c t r, Event.progress F c t r ∈ mp4Run c8Reader none → r = 24)) :=
  ⟨⟨by decide, by decide, by decide, rfl, by decide⟩,
   C8 c8Img 40 none none c8Reader 24 none (by decide) (by decide) (by decide)
     rfl (by decide)⟩

/-! C9. -/

/-- C9: when the decoder raises after k frames have been appended, the job
emits exactly the k progress events followed by exactly one terminal error
event (never a finished event), and the foreground that processed the
whole event sequence keeps the k already-appended frames readable with
loaded_frame = k -- partial progress is not retracted.  Stated for a webp
job failing at frame k and an mp4 job failing at frame k2. -/
theorem C9 (img : WebpImg) (k : ℕ) (msg : String) (s : AppState)
    (reader : Mp4Reader) (k2 : ℕ) (msg2 : String) (t : AppState)
    (hk : k < img.n_frames) (hk1 : 1 ≤ k)
    (hmax : img.n_frames ≤ DEF_MAX_FRAME) (hd : img.duration.getD 66 ≠ 0)
    (hk2 : k2 < reader.stream.length) (hk21 : 1 ≤ k2)
    (hmax2 : reader.count_frames ≤ DEF_MAX_FRAME) :
    webpRun img none (some (k, msg)) =
      webpProgressEvents img (webpFps img) k ++ [Event.error msg 0 0] ∧
    (webpRun img none (some (k, msg))).filter isErrorEv = [Event.error msg 0 0] ∧
    (∀ F, Event.finished F ∉ webpRun img none (some (k, msg))) ∧
    (processEvents s (webpRun img none (some (k, msg)))).frames =
      (List.range k).map img.frame ∧
    (processEvents s (webpRun img none (some (k, msg)))).loaded_frame = k ∧
    (mp4Run reader (some (k2, msg2))).filter isErrorEv = [Event.error msg2 0 0] ∧
    (∀ F, Event.finished F ∉ mp4Run reader (some (k2, msg2))) ∧
    (processEvents t (mp4Run reader (some (k2, msg2)))).frames =
      reader.stream.take k2 ∧
    (processEvents t (mp4Run reader (some (k2, msg2)))).loaded_frame = k2 := by
  have hloop := webpLoop_failed img (webpFps img) k msg (img.n_frames - 1) 0
    (by omega) (by omega)
  simp only [List.range_zero, List.map_nil] at hloop
  have hchar : webpRun img none (some (k, msg)) =
      webpProgressEvents img (webpFps img) k ++ [Event.error msg 0 0] := by
    rw [webpRun_eq img none (some (k, msg)) hmax hd, hloop]
    simp [webpProgressEvents, List.range_eq_range']
  obtain ⟨hm1, hm2, hm3⟩ := mp4Loop_failed reader.count_frames
    (reader.meta_fps.getD 15) k2 msg2 reader.stream 0 [] (by omega) (by simpa using hk2)
  have hmchar : mp4Run reader (some (k2, msg2)) =
      (mp4Loop reader.count_frames (reader.meta_fps.getD 15) (some (k2, msg2))
        reader.stream 0 []).1 ++ [Event.error msg2 0 0] := by
    rw [mp4Run_eq reader (some (k2, msg2)) hmax2, hm2]
  obtain ⟨m, rfl⟩ : ∃ m, k = m + 1 := ⟨k - 1, by omega⟩
  have hp := processEvents_progress img (webpFps img) s m
  have hm4 := hm3 t (by omega)
  refine ⟨hchar, ?_, ?_, ?_, ?_, ?_, ?_, ?_, ?_⟩
  · rw [hchar, List.filter_append, webpProgressEvents_filter]
    rfl
  · intro F
    rw [hchar]
    simp [webpProgressEvents_no_finished]
  · rw [hchar, processEvents_append]
    simpa [processEvents, handleEvent, on_error] using hp.1
  · rw [hchar, processEvents_append]
    simpa [processEvents, handleEvent, on_error] using hp.2
  · rw [hmchar, List.filter_append, mp4Loop_filter]
    rfl
  · intro F
    rw [hmchar]
    simp [mp4Loop_no_finished]
  · rw [hmchar, processEvents_append]
    simpa [processEvents, handleEvent, on_error] using hm4.1
  · rw [hmchar, processEvents_append]
    simpa [processEvents, handleEvent, on_error] using hm4.2

def c9Img : WebpImg := ⟨3, some 100, fun i => i⟩

def c9Reader : Mp4Reader := ⟨[5, 6, 7], 3, some 24⟩

theorem C9_witness :
    (2 < c9Img.n_frames ∧ 1 ≤ 2 ∧ c9Img.n_frames ≤ DEF_MAX_FRAME ∧
     c9Img.duration.getD 66 ≠ 0 ∧ 1 < c9Reader.stream.length ∧ 1 ≤ 1 ∧
     c9Reader.count_frames ≤ DEF_MAX_FRAME) ∧
    (webpRun c9Img none (some (2, "boom")) =
      webpProgressEvents c9Img (webpFps c9Img) 2 ++ [Event.error "boom" 0 0] ∧
     (webpRun c9Img none (some (2, "boom"))).filter isErrorEv =
       [Event.error "boom" 0 0] ∧
     (∀ F, Event.finished F ∉ webpRun c9Img none (some (2, "boom"))) ∧
     (processEvents initState (webpRun c9Img none (some (2, "boom")))).frames =
       (List.range 2).map c9Img.frame ∧
     (processEvents initState (webpRun c9Img none (some (2, "boom")))).loaded_frame = 2 ∧
     (mp4Run c9Reader (some (1, "oops"))).filter isErrorEv =
       [Event.error "oops" 0 0] ∧
     (∀ F, Event.finished F ∉ mp4Run c9Reader (some (1, "oops"))) ∧
     (processEvents initState (mp4Run c9Reader (some (1, "oops")))).frames =
       c9Reader.stream.take 1 ∧
     (processEvents initState (mp4Run c9Reader (some (1, "oops")))).loaded_frame = 1) :=
  ⟨⟨by decide, by decide, by decide, by decide, by decide, by decide, by decide⟩,
   C9 c9Img 2 "boom" initState c9Reader 1 "oops" initState (by decide) (by decide)
     (by decide) (by decide) (by decide) (by decide) (by decide)⟩

/-! C10. -/

/-- C10: every progress event publishes a frame list that already contains
count + 1 frames (for webp the decoded range prefix, for mp4 a stream
prefix), the published snapshots only grow (an earlier snapshot is a take
of a later one), on_loading therefore establishes
loaded_frame <= len(frames), and update_frame reads in bounds whenever it
takes the current_frame < loaded_frame branch, showing the placeholder
otherwise -- the indexed read never raises. -/
theorem C10 (img : WebpImg) (reader : Mp4Reader) (ca : Option ℕ)
    (fa fb : Option (ℕ × String))
    (h1 : img.n_frames ≤ DEF_MAX_FRAME) (h2 : img.duration.getD 66 ≠ 0)
    (h3 : reader.count_frames ≤ DEF_MAX_FRAME) :
    (∀ F c t r, Event.progress F c t r ∈ webpRun img ca fa →
      F = (List.range (c + 1)).map img.frame ∧ F.length = c + 1) ∧
    (∀ F c t r, Event.progress F c t r ∈ mp4Run reader fb →
      F = reader.stream.take (c + 1) ∧ F.length = c + 1) ∧
    (∀ F c t r F2 c2 t2 r2,
      Event.progress F c t r ∈ webpRun img ca fa →
      Event.progress F2 c2 t2 r2 ∈ webpRun img ca fa →
      c ≤ c2 → F = F2.take (c + 1)) ∧
    (∀ (u : AppState) (F : List ℕ) (c t : ℕ) (r : ℚ), F.length = c + 1 →
      ((on_loading u F c t r).loaded_frame : ℤ) ≤
        ((on_loading u F c t r).frames.length : ℤ)) ∧
    (∀ u : AppState, 0 ≤ u.current_frame →
      (u.loaded_frame : ℤ) ≤ (u.frames.length : ℤ) →
      u.current_frame < (u.loaded_frame : ℤ) →
      ∃ f, update_frame u = Displayed.frame f) ∧
    (∀ u : AppState, u.frames ≠ [] → ¬ u.current_frame < (u.loaded_frame : ℤ) →
      update_frame u = Displayed.placeholder) := by
  have hwebp : ∀ F c t r, Event.progress F c t r ∈ webpRun img ca fa →
      F = (List.range (c + 1)).map img.frame := fun F c t r hm =>
    (webpRun_mem_progress img ca fa h1 h2 F c t r hm).1
  refine ⟨?_, ?_, ?_, ?_, ?_, ?_⟩
  · intro F c t r hm
    refine ⟨hwebp F c t r hm, ?_⟩
    rw [hwebp F c t r hm]
    simp
  · intro F c t r hm
    obtain ⟨m, hmm1, hmm2, hF, hc, _, _⟩ := mp4Run_mem_progress reader fb h3 F c t r hm
    have hcm : c + 1 = m := by omega
    refine ⟨by rw [hF, hcm], ?_⟩
    rw [hF, hcm]
    simp [List.length_take]
    omega
  · intro F c t r F2 c2 t2 r2 hm hm2 hcc
    rw [hwebp F c t r hm, hwebp F2 c2 t2 r2 hm2]
    rw [← List.map_take, List.take_range]
    have hmin : min (c + 1) (c2 + 1) = c + 1 := by omega
    rw [hmin]
  · intro u F c t r hF
    have h := on_loading_frames u F c t r
    rw [h.1, h.2, hF]
  · intro u h0 hle hlt
    have hlen : u.current_frame.toNat < u.frames.length := by omega
    have hne : u.frames ≠ [] := by
      intro hcontra
      rw [hcontra] at hlen
      simp at hlen
    unfold update_frame
    rw [if_neg hne, if_pos hlt]
    unfold pyGet
    rw [if_pos h0, if_pos (by omega : u.current_frame < (u.frames.length : ℤ))]
    cases hg : u.frames.get? u.current_frame.toNat with
    | none =>
      exfalso
      rw [List.get?_eq_none] at hg
      omega
    | some f => exact ⟨f, rfl⟩
  · intro u hne hnlt
    unfold update_frame
    rw [if_neg hne, if_neg hnlt]

def c10Img : WebpImg := ⟨2, some 100, fun i => i⟩

def c10Reader : Mp4Reader := ⟨[4, 5], 2, some 24⟩

theorem C10_witness :
    (c10Img.n_frames ≤ DEF_MAX_FRAME ∧ c10Img.duration.getD 66 ≠ 0 ∧
     c10Reader.count_frames ≤ DEF_MAX_FRAME) ∧
    ((∀ F c t r, Event.progress F c t r ∈ webpRun c10Img none none →
        F = (List.range (c + 1)).map c10Img.frame ∧ F.length = c + 1) ∧
     (∀ F c t r, Event.progress F c t r ∈ mp4Run c10Reader none →
        F = c10Reader.stream.take (c + 1) ∧ F.length = c + 1) ∧
     (∀ F c t r F2 c2 t2 r2,
        Event.progress F c t r ∈ webpRun c10Img none none →
        Event.progress F2 c2 t2 r2 ∈ webpRun c10Img none none →
        c ≤ c2 → F = F2.take (c + 1)) ∧
     (∀ (u : AppState) (F : List ℕ) (c t : ℕ) (r : ℚ), F.length = c + 1 →
        ((on_loading u F c t r).loaded_frame : ℤ) ≤
          ((on_loading u F c t r).frames.length : ℤ)) ∧
     (∀ u : AppState, 0 ≤ u.current_frame →
        (u.loaded_frame : ℤ) ≤ (u.frames.length : ℤ) →
        u.current_frame < (u.loaded_frame : ℤ) →
        ∃ f, update_frame u = Displayed.frame f) ∧
     (∀ u : AppState, u.frames ≠ [] → ¬ u.current_frame < (u.loaded_frame : ℤ) →
        update_frame u = Displayed.placeholder)) :=
  ⟨⟨by decide, by decide, by decide⟩,
   C10 c10Img c10Reader none none none (by decide) (by decide) (by decide)⟩

end MovieToFrameImage
